import Mathlib

/-!
Verification development for the commad replication and conflict resolution
engine. JavaScript strings are modelled as lists of characters; the merge
tiers of `SyncService.mergeContent` / `SyncService.mergeLinesByContent`, the
conflict auto-resolution of `SyncService.autoResolveConflict`, the PouchDB
wrapper `DatabaseService.saveDocument`, the `DocumentManager` operations and
the one-shot sync operations are embedded as executable functions.
-/

set_option maxRecDepth 8000

namespace Commad

/-- JavaScript strings are modelled as lists of characters. -/
abbrev JStr := List Char

/-- One step of `s.split('\n')`: prepend character `c` to an existing
split, starting a new first line when `c` is the separator. -/
def consLine (c : Char) : List JStr → List JStr
  | [] => [[]]
  | l :: ls => if c = '\n' then [] :: l :: ls else (c :: l) :: ls

/-- JS `s.split('\n')`: splitting an empty string yields `[""]`, a trailing
newline yields a trailing empty line. -/
def splitLines : JStr → List JStr
  | [] => [[]]
  | c :: cs => consLine c (splitLines cs)

/-- JS `lines.join('\n')`. -/
def joinLines : List JStr → JStr
  | [] => []
  | [l] => l
  | l :: l' :: ls => l ++ '\n' :: joinLines (l' :: ls)

/-- Whitespace characters removed by JS `String.prototype.trim`: the
ECMAScript WhiteSpace set (TAB, VT, FF, SP, NBSP, ZWNBSP and the
Space_Separator category U+1680, U+2000..U+200A, U+202F, U+205F, U+3000)
together with the LineTerminator set (LF, CR, LS U+2028, PS U+2029). -/
def isWSChar (c : Char) : Bool :=
  c = ' ' || c = '\t' || c = '\n' || c = '\r' ||
  c.val = 0x0B || c.val = 0x0C || c.val = 0xA0 || c.val = 0x1680 ||
  (0x2000 ≤ c.val && c.val ≤ 0x200A) ||
  c.val = 0x2028 || c.val = 0x2029 || c.val = 0x202F || c.val = 0x205F ||
  c.val = 0x3000 || c.val = 0xFEFF

/-- JS `!s.trim()`: the string is empty or consists of whitespace only. -/
def isBlank (s : JStr) : Bool := s.all isWSChar

/-- JS `ls.includes(l)` on an array of lines. -/
def memLine (l : JStr) (ls : List JStr) : Bool := ls.any (fun x => x == l)

/-- The count `lines.filter(line => line.trim() && other.includes(line)).length`
from `mergeLinesByContent`. -/
def containedCount (short long : List JStr) : Nat :=
  (short.filter (fun l => !(isBlank l) && memLine l long)).length

/-- The `commonStart` loop of `mergeLinesByContent`: length of the longest
common prefix of the two line sequences. -/
def commonPrefixLen : List JStr → List JStr → Nat
  | a :: as, b :: bs => if a = b then commonPrefixLen as bs + 1 else 0
  | _, _ => 0

/-- `SyncService.mergeLinesByContent(lines1, lines2)`; `none` models the
JS `return null`. The float tests `contained >= len * 0.8` and
`commonStart >= min * 0.5` are rendered exactly over the integers as
`5 * contained ≥ 4 * len` (exact for the guarded range `len < 5`) and
`2 * commonStart ≥ min`. -/
def mergeLinesByContent (lines1 lines2 : List JStr) : Option (List JStr) :=
  if lines1.length < 5 ∧ lines2.length > lines1.length * 2 ∧
      5 * containedCount lines1 lines2 ≥ 4 * lines1.length then
    some lines2
  else if lines2.length < 5 ∧ lines1.length > lines2.length * 2 ∧
      5 * containedCount lines2 lines1 ≥ 4 * lines2.length then
    some lines1
  else if (joinLines lines2).isPrefixOf (joinLines lines1) ||
      (joinLines lines1).isPrefixOf (joinLines lines2) then
    some (if lines1.length > lines2.length then lines1 else lines2)
  else
    let commonStart := commonPrefixLen lines1 lines2
    if 0 < commonStart ∧ 2 * commonStart ≥ min lines1.length lines2.length then
      some (lines1.take commonStart ++ lines1.drop commonStart ++ lines2.drop commonStart)
    else
      none

/-- A document as consumed by `mergeContent`: `content` models
`doc.content || ''` (absent content is the empty string) and the timestamps
model the parsed `updatedAt` / `createdAt` dates in milliseconds. -/
structure MDoc where
  content : JStr
  updatedAt : Option Int
  createdAt : Option Int
deriving DecidableEq, Repr

/-- JS `new Date(doc.updatedAt || doc.createdAt || 0)` as milliseconds. -/
def docTime (d : MDoc) : Int := d.updatedAt.getD (d.createdAt.getD 0)

/-- Rendering of `Date.prototype.toLocaleString`, modelled as the decimal
millisecond value; it only ever appears inside conflict-marker lines and no
verified property depends on its exact text. -/
def localeString (t : Int) : JStr := (toString t).toList

/-- The label `Recent Version (${time.toLocaleString()})`. -/
def recentLabel (t : Int) : JStr :=
  "Recent Version (".toList ++ localeString t ++ ")".toList

/-- The label `Earlier Version (${time.toLocaleString()})`. -/
def earlierLabel (t : Int) : JStr :=
  "Earlier Version (".toList ++ localeString t ++ ")".toList

/-- The tier-7 conflict composite assembled at the end of `mergeContent`. -/
def compositeBody (firstContent secondContent firstLabel secondLabel : JStr) : JStr :=
  joinLines [
    "<<<<<<< ".toList ++ firstLabel,
    firstContent,
    "=======".toList,
    secondContent,
    ">>>>>>> ".toList ++ secondLabel,
    [],
    "<!-- AUTO-MERGED: Both versions preserved above -->".toList,
    "<!-- Edit as needed and remove conflict markers -->".toList]

/-- `SyncService.mergeContent(doc1, doc2)`: the ordered merge tiers
(identity, emptiness, containment, the heuristics of
`mergeLinesByContent`, and the conflict composite fallback). -/
def mergeContent (doc1 doc2 : MDoc) : JStr :=
  let content1 := doc1.content
  let content2 := doc2.content
  if content1 = content2 then content1
  else if isBlank content1 then content2
  else if isBlank content2 then content1
  else
    let lines1 := splitLines content1
    let lines2 := splitLines content2
    if lines1.all (fun l => memLine l lines2) then content2
    else if lines2.all (fun l => memLine l lines1) then content1
    else
      match mergeLinesByContent lines1 lines2 with
      | some mergedLines => joinLines mergedLines
      | none =>
        let time1 := docTime doc1
        let time2 := docTime doc2
        if time1 > time2 then
          compositeBody content1 content2 (recentLabel time1) (earlierLabel time2)
        else
          compositeBody content2 content1 (recentLabel time2) (earlierLabel time1)

/-- The resolved content computed by `SyncService.autoResolveConflict`: the
current winning document is merged with `conflictVersions[0]` only; when no
conflict revision could be loaded the function returns early (`none`). -/
def autoResolveContent (currentDoc : MDoc) (conflictVersions : List MDoc) : Option JStr :=
  match conflictVersions with
  | [] => none
  | v :: _ => some (mergeContent currentDoc v)

/-- The pairwise left-to-right fold over all conflicting leaves that the
specification describes for multi-leaf conflicts, written out from the
spec for comparison with `autoResolveContent`; each intermediate merged
document carries the merge result as its body. -/
def claimPairwiseFold (currentDoc : MDoc) (leaves : List MDoc) (now : Int) : JStr :=
  (leaves.foldl
    (fun acc v => { acc with content := mergeContent acc v, updatedAt := some now })
    currentDoc).content

/-! Supporting lemmas about the string model. -/

theorem consLine_ne_nil (c : Char) (ls : List JStr) : consLine c ls ≠ [] := by
  cases ls with
  | nil => simp [consLine]
  | cons l ls' => by_cases hc : c = '\n' <;> simp [consLine, hc]

theorem splitLines_ne_nil (s : JStr) : splitLines s ≠ [] := by
  cases s with
  | nil => simp [splitLines]
  | cons c cs => exact consLine_ne_nil c (splitLines cs)

theorem joinLines_splitLines (s : JStr) : joinLines (splitLines s) = s := by
  induction s with
  | nil => rfl
  | cons c cs ih =>
    simp only [splitLines]
    cases h : splitLines cs with
    | nil => exact absurd h (splitLines_ne_nil cs)
    | cons l ls =>
      rw [h] at ih
      by_cases hc : c = '\n'
      · subst hc
        simpa [consLine, joinLines] using ih
      · simp only [consLine, if_neg hc]
        cases ls with
        | nil => simp only [joinLines] at ih ⊢; rw [ih]
        | cons l' ls' =>
          simp only [joinLines, List.cons_append] at ih ⊢
          rw [ih]

theorem memLine_iff (l : JStr) (ls : List JStr) : memLine l ls = true ↔ l ∈ ls := by
  simp [memLine, List.any_eq_true, beq_iff_eq]

theorem mem_of_mem_splitLines {s l : JStr} (hl : l ∈ splitLines s) :
    ∀ c ∈ l, c ∈ s := by
  induction s generalizing l with
  | nil =>
    simp only [splitLines, List.mem_singleton] at hl
    subst hl
    intro c hc
    cases hc
  | cons a as ih =>
    simp only [splitLines] at hl
    cases h : splitLines as with
    | nil => exact absurd h (splitLines_ne_nil as)
    | cons l0 ls0 =>
      rw [h] at hl
      simp only [consLine] at hl
      by_cases ha : a = '\n'
      · rw [if_pos ha] at hl
        rcases List.mem_cons.mp hl with hl' | hl'
        · subst hl'; intro c hc; cases hc
        · intro c hc
          exact List.mem_cons_of_mem a (ih (l := l) (h ▸ hl') c hc)
      · rw [if_neg ha] at hl
        rcases List.mem_cons.mp hl with hl' | hl'
        · subst hl'
          intro c hc
          rcases List.mem_cons.mp hc with hc' | hc'
          · exact hc' ▸ List.mem_cons_self a as
          · exact List.mem_cons_of_mem a
              (ih (l := l0) (h ▸ List.mem_cons_self l0 ls0) c hc')
        · intro c hc
          exact List.mem_cons_of_mem a
            (ih (l := l) (h ▸ List.mem_cons_of_mem l0 hl') c hc)

theorem isBlank_of_mem_splitLines {s l : JStr} (hs : isBlank s = true)
    (hl : l ∈ splitLines s) : isBlank l = true := by
  rw [isBlank, List.all_eq_true] at hs ⊢
  intro c hc
  exact hs c (mem_of_mem_splitLines hl c hc)

theorem isBlank_joinLines {ls : List JStr} (h : ∀ l ∈ ls, isBlank l = true) :
    isBlank (joinLines ls) = true := by
  induction ls with
  | nil => rfl
  | cons l ls ih =>
    cases ls with
    | nil => simpa [joinLines] using h l (by simp)
    | cons l' ls' =>
      have h1 := h l (by simp)
      have h2 : isBlank (joinLines (l' :: ls')) = true :=
        ih (fun x hx => h x (List.mem_cons_of_mem l hx))
      simp only [joinLines] at h2 ⊢
      rw [isBlank] at h1 h2 ⊢
      rw [List.all_append]
      simp only [List.all_cons] at h2 ⊢
      simp [h1, h2, isWSChar]

theorem isBlank_of_lines_blank {s : JStr} (h : ∀ l ∈ splitLines s, isBlank l = true) :
    isBlank s = true := by
  have := isBlank_joinLines h
  rwa [joinLines_splitLines] at this

/-- Helper for claim C4: the tier-5 branch of `mergeLinesByContent` returns
the side with more lines (ties go to `lines2`). -/
theorem mergeLinesByContent_tier5 (lines1 lines2 : List JStr)
    (h6 : ¬ (lines1.length < 5 ∧ lines2.length > lines1.length * 2 ∧
        5 * containedCount lines1 lines2 ≥ 4 * lines1.length))
    (h7 : ¬ (lines2.length < 5 ∧ lines1.length > lines2.length * 2 ∧
        5 * containedCount lines2 lines1 ≥ 4 * lines2.length))
    (h8 : ((joinLines lines2).isPrefixOf (joinLines lines1) ||
        (joinLines lines1).isPrefixOf (joinLines lines2)) = true) :
    mergeLinesByContent lines1 lines2 =
      some (if lines1.length > lines2.length then lines1 else lines2) := by
  rw [mergeLinesByContent, if_neg h6, if_neg h7, if_pos h8]

/-- C6: merge is idempotent on identical bodies, whatever the metadata. -/
theorem mergeContent_self (d1 d2 : MDoc) (h : d1.content = d2.content) :
    mergeContent d1 d2 = d1.content := by
  rw [mergeContent]
  simp [h]

theorem mergeContent_self_witness :
    mergeContent ⟨"abc".toList, none, none⟩ ⟨"abc".toList, some 5, some 7⟩ = "abc".toList :=
  mergeContent_self _ _ rfl

/-- C5 counterexample: every line of B appears among the lines of A, yet the
merge returns B, not A. -/
theorem mergeContent_containment_cex :
    (∀ l ∈ splitLines ("y\nx".toList), l ∈ splitLines ("x\ny".toList)) ∧
    mergeContent ⟨"x\ny".toList, none, none⟩ ⟨"y\nx".toList, none, none⟩ ≠ "x\ny".toList := by
  decide

/-- C5 amended: line containment of A in B yields B; the symmetric case
yields A provided the containment is not mutual and A is not blank. -/
theorem mergeContent_containment :
    (∀ d1 d2 : MDoc, (∀ l ∈ splitLines d1.content, l ∈ splitLines d2.content) →
        mergeContent d1 d2 = d2.content) ∧
    (∀ d1 d2 : MDoc, (∀ l ∈ splitLines d2.content, l ∈ splitLines d1.content) →
        (¬ ∀ l ∈ splitLines d1.content, l ∈ splitLines d2.content) →
        isBlank d1.content = false →
        mergeContent d1 d2 = d1.content) := by
  constructor
  · intro d1 d2 h
    by_cases h1 : d1.content = d2.content
    · rw [mergeContent]; simp [h1]
    · by_cases h2 : isBlank d1.content = true
      · rw [mergeContent]; simp [h1, h2]
      · have h3 : isBlank d2.content = false := by
          rcases Bool.eq_false_or_eq_true (isBlank d2.content) with h3 | h3
          · exact absurd
              (isBlank_of_lines_blank (fun l hl => isBlank_of_mem_splitLines h3 (h l hl))) h2
          · exact h3
        have h4 : (splitLines d1.content).all
            (fun l => memLine l (splitLines d2.content)) = true := by
          rw [List.all_eq_true]
          intro l hl
          rw [memLine_iff]
          exact h l hl
        rw [Bool.not_eq_true] at h2
        rw [mergeContent]
        simp [h1, h2, h3, h4]
  · intro d1 d2 h hno hb
    by_cases h1 : d1.content = d2.content
    · exact absurd (fun l hl => h1 ▸ hl) hno
    · have h4 : (splitLines d1.content).all
          (fun l => memLine l (splitLines d2.content)) = false := by
        rcases Bool.eq_false_or_eq_true
          ((splitLines d1.content).all (fun l => memLine l (splitLines d2.content))) with h4 | h4
        · rw [List.all_eq_true] at h4
          exact absurd (fun l hl => (memLine_iff l _).mp (h4 l hl)) hno
        · exact h4
      by_cases h3 : isBlank d2.content = true
      · rw [mergeContent]; simp [h1, hb, h3]
      · have h5 : (splitLines d2.content).all
            (fun l => memLine l (splitLines d1.content)) = true := by
          rw [List.all_eq_true]
          intro l hl
          rw [memLine_iff]
          exact h l hl
        rw [Bool.not_eq_true] at h3
        rw [mergeContent]
        simp [h1, hb, h3, h4, h5]

theorem mergeContent_containment_witness :
    mergeContent ⟨"a".toList, none, none⟩ ⟨"a\nb".toList, none, none⟩ = "a\nb".toList ∧
    mergeContent ⟨"a\nb".toList, none, none⟩ ⟨"b".toList, none, none⟩ = "a\nb".toList :=
  ⟨mergeContent_containment.1 _ _ (by decide),
   mergeContent_containment.2 _ _ (by decide) (by decide) (by decide)⟩

/-- C2, failing input: both bodies are single non-blank lines, one the string
prefix of the other; the merge returns the shorter body and the line `ab` of
the first body appears nowhere in the output. -/
theorem mergeContent_drops_line :
    mergeContent ⟨"ab".toList, none, none⟩ ⟨"a".toList, none, none⟩ = "a".toList ∧
    "ab".toList ∈ splitLines ("ab".toList) ∧
    "ab".toList ∉
      splitLines (mergeContent ⟨"ab".toList, none, none⟩ ⟨"a".toList, none, none⟩) := by
  decide

/-- C4 counterexample: at merge tier 5 with `"x"` a strict string prefix of
`"xy"`, the code returns the shorter body `"x"`, not the longer one. -/
theorem mergeContent_prefix_cex :
    ("xy".toList : JStr) ≠ "x".toList ∧
    isBlank ("xy".toList) = false ∧
    isBlank ("x".toList) = false ∧
    (splitLines ("xy".toList)).all (fun l => memLine l (splitLines ("x".toList))) = false ∧
    (splitLines ("x".toList)).all (fun l => memLine l (splitLines ("xy".toList))) = false ∧
    ¬ ((splitLines ("xy".toList)).length < 5 ∧
        (splitLines ("x".toList)).length > (splitLines ("xy".toList)).length * 2 ∧
        5 * containedCount (splitLines ("xy".toList)) (splitLines ("x".toList)) ≥
          4 * (splitLines ("xy".toList)).length) ∧
    ¬ ((splitLines ("x".toList)).length < 5 ∧
        (splitLines ("xy".toList)).length > (splitLines ("x".toList)).length * 2 ∧
        5 * containedCount (splitLines ("x".toList)) (splitLines ("xy".toList)) ≥
          4 * (splitLines ("x".toList)).length) ∧
    (joinLines (splitLines ("x".toList))).isPrefixOf (joinLines (splitLines ("xy".toList))) = true ∧
    ("xy".toList : JStr).length > ("x".toList : JStr).length ∧
    mergeContent ⟨"xy".toList, none, none⟩ ⟨"x".toList, none, none⟩ = "x".toList := by
  decide

/-- C4 amended: when no earlier tier applies and one joined body is a string
prefix of the other, the merge returns the body with strictly more lines,
and B when the line counts are equal. -/
theorem mergeContent_prefix_more_lines (d1 d2 : MDoc)
    (h1 : d1.content ≠ d2.content)
    (h2 : isBlank d1.content = false)
    (h3 : isBlank d2.content = false)
    (h4 : (splitLines d1.content).all (fun l => memLine l (splitLines d2.content)) = false)
    (h5 : (splitLines d2.content).all (fun l => memLine l (splitLines d1.content)) = false)
    (h6 : ¬ ((splitLines d1.content).length < 5 ∧
        (splitLines d2.content).length > (splitLines d1.content).length * 2 ∧
        5 * containedCount (splitLines d1.content) (splitLines d2.content) ≥
          4 * (splitLines d1.content).length))
    (h7 : ¬ ((splitLines d2.content).length < 5 ∧
        (splitLines d1.content).length > (splitLines d2.content).length * 2 ∧
        5 * containedCount (splitLines d2.content) (splitLines d1.content) ≥
          4 * (splitLines d2.content).length))
    (h8 : ((joinLines (splitLines d2.content)).isPrefixOf (joinLines (splitLines d1.content)) ||
        (joinLines (splitLines d1.content)).isPrefixOf (joinLines (splitLines d2.content))) = true) :
    mergeContent d1 d2 =
      if (splitLines d1.content).length > (splitLines d2.content).length
      then d1.content else d2.content := by
  rw [mergeContent]
  simp only [h1, h2, h3, h4, h5, if_false, Bool.false_eq_true, if_neg (fun h => h1 h)]
  rw [mergeLinesByContent_tier5 _ _ h6 h7 h8]
  by_cases hlen : (splitLines d1.content).length > (splitLines d2.content).length <;>
    simp [hlen, joinLines_splitLines]

theorem mergeContent_prefix_more_lines_witness :
    mergeContent ⟨"a\nb".toList, none, none⟩ ⟨"a\nbc".toList, none, none⟩ = "a\nbc".toList := by
  have h := mergeContent_prefix_more_lines ⟨"a\nb".toList, none, none⟩ ⟨"a\nbc".toList, none, none⟩
    (by decide) (by decide) (by decide) (by decide) (by decide) (by decide) (by decide) (by decide)
  simpa using h

/-- C3 counterexample: with three leaves, the code merges the winner with the
first conflict version only; the second leaf's line `World` is lost, while
the pairwise fold described by the claim preserves it in either order. -/
theorem autoResolve_first_only_cex :
    autoResolveContent ⟨"Hello".toList, some 0, none⟩
      [⟨"Hello".toList, some 1, none⟩, ⟨"Hello\nWorld".toList, some 2, none⟩]
      = some ("Hello".toList) ∧
    claimPairwiseFold ⟨"Hello".toList, some 0, none⟩
      [⟨"Hello".toList, some 1, none⟩, ⟨"Hello\nWorld".toList, some 2, none⟩] 3
      = "Hello\nWorld".toList ∧
    claimPairwiseFold ⟨"Hello".toList, some 0, none⟩
      [⟨"Hello\nWorld".toList, some 2, none⟩, ⟨"Hello".toList, some 1, none⟩] 3
      = "Hello\nWorld".toList ∧
    ("Hello".toList : JStr) ≠ "Hello\nWorld".toList ∧
    "World".toList ∈ splitLines ("Hello\nWorld".toList) ∧
    "World".toList ∉ splitLines ("Hello".toList) := by
  decide

/-- C3 amended: automatic resolution merges the current winner with the
first loaded conflict revision only; later leaves never enter the merge, and
with no loaded conflict revision the resolution returns early. -/
theorem autoResolve_merges_first_only (currentDoc v : MDoc) (vs : List MDoc) :
    autoResolveContent currentDoc (v :: vs) = some (mergeContent currentDoc v) ∧
    autoResolveContent currentDoc [] = none :=
  ⟨rfl, rfl⟩

/-! Model of the local document database (`DatabaseService`, `DocumentManager`).
JS document objects are records of optional fields (`none` models an absent
property), timestamps (`Date.now()` / `toISOString()`) are modelled as
naturals, and revisions by their generation counter. -/

/-- A JS document object; `none` models an absent (`undefined`) property. -/
structure JsDoc where
  _id : Option String
  id : Option String
  _rev : Option Nat
  title : Option String
  content : Option String
  createdAt : Option Nat
  updatedAt : Option Nat
deriving DecidableEq, Repr

/-- JS truthiness of a possibly-absent string: `undefined` and `""` are falsy. -/
def jsTruthy : Option String → Bool
  | none => false
  | some s => !(s == "")

/-- JS `a || b` on possibly-absent strings: `a` when truthy, otherwise `b`. -/
def jsOr (a b : Option String) : Option String :=
  if jsTruthy a then a else b

/-- JS object spread `{...a, ...b}` over the modelled fields: a property of
`b` overrides the same property of `a` whenever `b` has it. -/
def spreadDoc (a b : JsDoc) : JsDoc :=
  { _id := b._id <|> a._id
    id := b.id <|> a.id
    _rev := b._rev <|> a._rev
    title := b.title <|> a.title
    content := b.content <|> a.content
    createdAt := b.createdAt <|> a.createdAt
    updatedAt := b.updatedAt <|> a.updatedAt }

/-- The local PouchDB database: an association list keyed by `_id`. -/
abbrev Store := List (String × JsDoc)

def lookupStore : Store → String → Option JsDoc
  | [], _ => none
  | (k, v) :: rest, key => if k = key then some v else lookupStore rest key

def replaceEntry : Store → String → JsDoc → Store
  | [], _, _ => []
  | (k, v) :: rest, key, d =>
    if k = key then (key, d) :: rest else (k, v) :: replaceEntry rest key d

def removeEntry : Store → String → Store
  | [], _ => []
  | (k, v) :: rest, key => if k = key then rest else (k, v) :: removeEntry rest key

inductive DbErr where
  | notFound
  | conflict
  | missingId
deriving DecidableEq, Repr

/-- Modelled from the spec: the underlying store read (`db.get`) returns the
current winning document or fails with `NotFound`. -/
def dbGet (s : Store) (id : String) : Except DbErr JsDoc :=
  match lookupStore s id with
  | some d => .ok d
  | none => .error .notFound

/-- Modelled from the spec: the underlying store write (`db.put`) is the
optimistic-concurrency check — a write whose revision does not match the
current winning revision fails with `RevisionConflict`, a successful write
increments the generation counter. -/
def dbPut (s : Store) (doc : JsDoc) : Except DbErr (Store × String) :=
  match doc._id with
  | none => .error .missingId
  | some key =>
    match lookupStore s key with
    | some cur =>
      if doc._rev = cur._rev then
        .ok (replaceEntry s key { doc with _rev := some (cur._rev.getD 0 + 1) }, key)
      else .error .conflict
    | none =>
      match doc._rev with
      | none => .ok (s ++ [(key, { doc with _rev := some 1 })], key)
      | some _ => .error .conflict

/-- Modelled from the spec: the underlying `db.remove(doc)` removes the leaf
revision `doc._rev` of `doc._id`; an absent id or mismatched revision fails. -/
def dbRemove (s : Store) (doc : JsDoc) : Except DbErr Store :=
  match doc._id with
  | none => .error .missingId
  | some key =>
    match lookupStore s key with
    | some cur =>
      if doc._rev = cur._rev then .ok (removeEntry s key) else .error .conflict
    | none => .error .notFound

namespace DatabaseService

/-- The inner `try`/`catch` of `saveDocument`: when the document carries a
truthy `_id` or `id`, look the existing document up and build `docToSave`
with the existing fields spread under the input's, the id pinned and the
current revision substituted (`// Important: keep the revision`); a
`not_found` is swallowed, every other error rethrown. -/
def saveExisting (s : Store) (document : JsDoc) (now : Nat) :
    Except DbErr (Option JsDoc × JsDoc) :=
  if jsTruthy (jsOr document._id document.id) then
    match dbGet s ((jsOr document._id document.id).getD "") with
    | .ok existingDoc =>
      .ok (some existingDoc,
        { spreadDoc existingDoc document with
            _id := some ((jsOr document._id document.id).getD "")
            _rev := existingDoc._rev
            updatedAt := some now })
    | .error e => if e = DbErr.notFound then .ok (none, document) else .error e
  else .ok (none, document)

/-- The `newId` chosen for a document that does not already exist:
`document.id || document._id || doc-${Date.now()}`. -/
def newDocId (document : JsDoc) (now : Nat) : String :=
  (jsOr (jsOr document.id document._id) (some ("doc-" ++ toString now))).getD ""

/-- The tail of `saveDocument`: `db.put(docToSave)` followed by the re-read
`db.get(response.id)` of the saved document. The modelled `db.put` always
reports `ok` on success, so the `Failed to save document` throw is
unreachable. -/
def saveDocumentPut (s : Store) (docToSave : JsDoc) : Except DbErr (Store × JsDoc) :=
  match dbPut s docToSave with
  | .error e => .error e
  | .ok (s2, respId) =>
    match dbGet s2 respId with
    | .ok saved => .ok (s2, saved)
    | .error e => .error e

/-- `DatabaseService.saveDocument` without its outermost `catch`: the
existence check, the new-document defaults (fresh id and timestamps) when
nothing existed, then the put and re-read. `now` models `Date.now()` and
`new Date().toISOString()`. -/
def saveDocumentE (s : Store) (document : JsDoc) (now : Nat) :
    Except DbErr (Store × JsDoc) :=
  match saveExisting s document now with
  | .error e => .error e
  | .ok (existingDoc, docToSave0) =>
    if existingDoc.isNone then
      saveDocumentPut s
        { docToSave0 with
            _id := some (newDocId document now)
            id := some (newDocId document now)
            createdAt := some (document.createdAt.getD now)
            updatedAt := some now }
    else saveDocumentPut s docToSave0

/-- `DatabaseService.saveDocument`: the outer `catch` swallows every error
and returns the input document with the store as it was. -/
def saveDocument (s : Store) (document : JsDoc) (now : Nat) : Store × JsDoc :=
  match saveDocumentE s document now with
  | .ok r => r
  | .error _ => (s, document)

/-- `DatabaseService.getDocument`: `db.get` with errors turned into `null`. -/
def getDocument (s : Store) (id : String) : Option JsDoc :=
  match dbGet s id with
  | .ok d => some d
  | .error _ => none

/-- `DatabaseService.deleteDocument`: read the document to obtain its
revision, remove it; any error yields `false` with the store unchanged. -/
def deleteDocument (s : Store) (id : String) : Store × Bool :=
  match dbGet s id with
  | .ok doc =>
    match dbRemove s doc with
    | .ok s2 => (s2, true)
    | .error _ => (s, false)
  | .error _ => (s, false)

end DatabaseService

/-- The document produced by `SettingsDocumentService.getDocument`: id
`settings`, title `Settings`, YAML content generated from the live
configuration. The operations verified here consult only its `id`, so the
generated YAML text and presentation fields are not modelled. -/
def settingsDoc : JsDoc :=
  { _id := none, id := some "settings", _rev := none, title := some "Settings",
    content := none, createdAt := none, updatedAt := none }

namespace DocumentManager

/-- The `DEFAULT_DOCUMENT` created when no documents exist; its module-load
timestamps are modelled as 0. -/
def DEFAULT_DOCUMENT : JsDoc :=
  { _id := none
    id := some "welcome"
    _rev := none
    title := some "Welcome Document"
    content := some "# Welcome to Commad\n\nThis is your first document. You can edit it or create new ones using the command palette (Ctrl+Enter).\n\n## Features\n\n- Markdown editing\n- Document management\n- Command palette\n- PouchDB storage for offline support"
    createdAt := some 0
    updatedAt := some 0 }

/-- Insertion step of the `updatedAt`-descending sort in `getAllDocuments`. -/
def insertByUpdated (d : JsDoc) : List JsDoc → List JsDoc
  | [] => [d]
  | e :: es =>
    if e.updatedAt.getD 0 ≤ d.updatedAt.getD 0 then d :: e :: es
    else e :: insertByUpdated d es

/-- The sort `(a, b) => new Date(b.updatedAt) - new Date(a.updatedAt)`:
documents ordered by `updatedAt` descending. -/
def sortByUpdated (ds : List JsDoc) : List JsDoc := ds.foldr insertByUpdated []

/-- `DocumentManager.saveDocument`: documents with id `settings` are routed
to `SettingsDocumentService.saveDocument`, which only parses and applies
configuration (and on validation failure throws); the document store is
untouched either way. Every other document goes to
`DatabaseService.saveDocument`. -/
def saveDocument (s : Store) (document : JsDoc) (now : Nat) : Store × JsDoc :=
  if document.id = some "settings" then (s, settingsDoc)
  else DatabaseService.saveDocument s document now

/-- `DocumentManager.getAllDocuments`: all stored documents; when none
exist, the default document is first created through `saveDocument` and the
freshly built in-memory object is used. The settings document is placed
first, the regular documents are sorted by `updatedAt` descending. -/
def getAllDocuments (s : Store) (now : Nat) : Store × List JsDoc :=
  let documents := s.map (·.2)
  if documents.length = 0 then
    ((saveDocument s DEFAULT_DOCUMENT now).1,
      settingsDoc :: sortByUpdated [DEFAULT_DOCUMENT])
  else
    (s, settingsDoc :: sortByUpdated documents)

/-- `DocumentManager.getDocument`: the settings document is synthesized, all
other reads go to the database. -/
def getDocument (s : Store) (id : String) : Option JsDoc :=
  if id = "settings" then some settingsDoc
  else DatabaseService.getDocument s id

/-- `DocumentManager.deleteDocument`: never deletes the settings document,
never deletes when at most one regular document is listed; otherwise defers
to `DatabaseService.deleteDocument`. -/
def deleteDocument (s : Store) (id : String) (now : Nat) : Store × Bool :=
  if id = "settings" then (s, false)
  else
    let p := getAllDocuments s now
    let regularDocs := p.2.filter (fun d => !(d.id == some "settings"))
    if regularDocs.length ≤ 1 then (p.1, false)
    else DatabaseService.deleteDocument p.1 id

/-- `DocumentManager.createDocument`. -/
def createDocument (s : Store) (title : String) (now : Nat) : Store × JsDoc :=
  let newDoc : JsDoc :=
    { _id := none
      id := some ("doc-" ++ toString now)
      _rev := none
      title := some title
      content := some ("# " ++ title ++ "\n\n")
      createdAt := some now
      updatedAt := some now }
  saveDocument s newDoc now

end DocumentManager

/-- Number of stored documents whose `id` field is not `settings` (the
"regular" documents). -/
def regularCount (s : Store) : Nat :=
  (s.filter (fun p => !(p.2.id == some "settings"))).length

/-- The public `DocumentManager` operations. -/
inductive DmOp where
  | getAll
  | getDoc (id : String)
  | save (document : JsDoc)
  | del (id : String)
  | create (title : String)

/-- Effect of one public `DocumentManager` operation on the store. -/
def dmStep (s : Store) : DmOp → Nat → Store
  | .getAll, now => (DocumentManager.getAllDocuments s now).1
  | .getDoc _, _ => s
  | .save d, now => (DocumentManager.saveDocument s d now).1
  | .del id, now => (DocumentManager.deleteDocument s id now).1
  | .create t, now => (DocumentManager.createDocument s t now).1

/-- Effect of a sequence of public `DocumentManager` operations. -/
def dmRun (s : Store) : List (DmOp × Nat) → Store
  | [] => s
  | (op, now) :: rest => dmRun (dmStep s op now) rest

/-! Supporting lemmas about the store model. -/

theorem lookupStore_replaceEntry_self (s : Store) (key : String) (d cur : JsDoc)
    (h : lookupStore s key = some cur) :
    lookupStore (replaceEntry s key d) key = some d := by
  induction s with
  | nil => simp [lookupStore] at h
  | cons p rest ih =>
    obtain ⟨k, v⟩ := p
    by_cases hk : k = key
    · subst hk
      simp [replaceEntry, lookupStore]
    · simp only [lookupStore, if_neg hk] at h
      simp [replaceEntry, lookupStore, hk, ih h]

theorem regularCount_nil : regularCount [] = 0 := rfl

theorem regularCount_cons (k : String) (v : JsDoc) (rest : Store) :
    regularCount ((k, v) :: rest) =
      (if (!(v.id == some "settings")) = true then 1 else 0) + regularCount rest := by
  by_cases h : (!(v.id == some "settings")) = true <;>
    simp [regularCount, List.filter_cons, h, Nat.add_comm]

theorem regularCount_append (s t : Store) :
    regularCount (s ++ t) = regularCount s + regularCount t := by
  simp [regularCount, List.filter_append]

theorem regularCount_replaceEntry (s : Store) (key : String) (d : JsDoc)
    (h : ∀ cur, lookupStore s key = some cur →
      ((!(cur.id == some "settings")) = true → (!(d.id == some "settings")) = true)) :
    regularCount s ≤ regularCount (replaceEntry s key d) := by
  induction s with
  | nil => simp [replaceEntry]
  | cons p rest ih =>
    obtain ⟨k, v⟩ := p
    by_cases hk : k = key
    · subst hk
      have hv := h v (by simp [lookupStore])
      simp only [replaceEntry, if_pos]
      rw [regularCount_cons, regularCount_cons]
      by_cases hreg : (!(v.id == some "settings")) = true
      · rw [if_pos hreg, if_pos (hv hreg)]
      · rw [if_neg hreg]
        omega
    · have hrest : ∀ cur, lookupStore rest key = some cur →
          ((!(cur.id == some "settings")) = true → (!(d.id == some "settings")) = true) := by
        intro cur hcur
        exact h cur (by simp [lookupStore, hk, hcur])
      simp only [replaceEntry]
      rw [if_neg hk]
      rw [regularCount_cons, regularCount_cons]
      exact Nat.add_le_add_left (ih hrest) _

theorem regularCount_removeEntry (s : Store) (key : String) :
    regularCount s ≤ regularCount (removeEntry s key) + 1 := by
  induction s with
  | nil => simp [removeEntry, regularCount_nil]
  | cons p rest ih =>
    obtain ⟨k, v⟩ := p
    by_cases hk : k = key
    · subst hk
      simp only [removeEntry, if_pos]
      rw [regularCount_cons]
      by_cases hreg : (!(v.id == some "settings")) = true
      · rw [if_pos hreg]
        omega
      · rw [if_neg hreg]
        omega
    · simp only [removeEntry]
      rw [if_neg hk]
      rw [regularCount_cons, regularCount_cons]
      omega

theorem regularCount_le_dbPut (s : Store) (doc : JsDoc) (s2 : Store) (k : String)
    (h : dbPut s doc = .ok (s2, k))
    (hreg : ∀ cur, lookupStore s k = some cur →
      ((!(cur.id == some "settings")) = true → (!(doc.id == some "settings")) = true)) :
    regularCount s ≤ regularCount s2 := by
  unfold dbPut at h
  split at h
  · simp at h
  · rename_i key h_id
    split at h
    · rename_i cur hl
      split at h
      · simp only [Except.ok.injEq, Prod.mk.injEq] at h
        obtain ⟨hs2, hk⟩ := h
        subst hk
        rw [← hs2]
        exact regularCount_replaceEntry s key _ (fun cur' hcur' => hreg cur' hcur')
      · simp at h
    · rename_i hl
      split at h
      · simp only [Except.ok.injEq, Prod.mk.injEq] at h
        obtain ⟨hs2, hk⟩ := h
        rw [← hs2, regularCount_append]
        exact Nat.le_add_right _ _
      · simp at h

theorem doc_prefix_ne (n : Nat) : ("doc-" ++ toString n) ≠ "settings" := by
  intro h
  have hd : ("doc-" ++ toString n).data = "settings".data := congrArg String.data h
  rw [String.data_append] at hd
  have h1 : ("doc-" : String).data = ['d', 'o', 'c', '-'] := rfl
  have h2 : ("settings" : String).data = ['s', 'e', 't', 't', 'i', 'n', 'g', 's'] := rfl
  rw [h1, h2] at hd
  simp at hd

theorem dbGet_ok_iff (s : Store) (id : String) (d : JsDoc) :
    dbGet s id = .ok d ↔ lookupStore s id = some d := by
  unfold dbGet
  constructor
  · intro h
    split at h
    · rename_i hl
      simp only [Except.ok.injEq] at h
      rw [hl, h]
    · simp at h
  · intro h
    rw [h]

theorem dbGet_error_iff (s : Store) (id : String) (e : DbErr) :
    dbGet s id = .error e ↔ lookupStore s id = none ∧ e = .notFound := by
  unfold dbGet
  constructor
  · intro h
    split at h
    · simp at h
    · rename_i hl
      simp only [Except.error.injEq] at h
      exact ⟨hl, h.symm⟩
  · intro ⟨h1, h2⟩
    rw [h1, h2]

theorem saveExisting_inv (s : Store) (document : JsDoc) (now : Nat)
    (existingDoc : Option JsDoc) (d0 : JsDoc)
    (h : DatabaseService.saveExisting s document now = .ok (existingDoc, d0)) :
    (existingDoc = none ∧ d0 = document ∧
      (jsTruthy (jsOr document._id document.id) = false ∨
        lookupStore s ((jsOr document._id document.id).getD "") = none)) ∨
    (∃ existing, existingDoc = some existing ∧
      jsTruthy (jsOr document._id document.id) = true ∧
      lookupStore s ((jsOr document._id document.id).getD "") = some existing ∧
      d0 = { spreadDoc existing document with
          _id := some ((jsOr document._id document.id).getD "")
          _rev := existing._rev
          updatedAt := some now }) := by
  unfold DatabaseService.saveExisting at h
  split at h
  · rename_i htr
    split at h
    · rename_i exd hget
      simp only [Except.ok.injEq, Prod.mk.injEq] at h
      obtain ⟨h1, h2⟩ := h
      exact .inr ⟨exd, h1.symm, htr, (dbGet_ok_iff s _ exd).mp hget, h2.symm⟩
    · rename_i e hget
      split at h
      · simp only [Except.ok.injEq, Prod.mk.injEq] at h
        obtain ⟨h1, h2⟩ := h
        exact .inl ⟨h1.symm, h2.symm, .inr ((dbGet_error_iff s _ e).mp hget).1⟩
      · simp at h
  · rename_i htr
    rw [Bool.not_eq_true] at htr
    simp only [Except.ok.injEq, Prod.mk.injEq] at h
    obtain ⟨h1, h2⟩ := h
    exact .inl ⟨h1.symm, h2.symm, .inl htr⟩

theorem saveDocumentPut_ok_inv (s : Store) (d : JsDoc) (s2 : Store) (saved : JsDoc)
    (h : DatabaseService.saveDocumentPut s d = .ok (s2, saved)) :
    ∃ k, dbPut s d = .ok (s2, k) ∧ dbGet s2 k = .ok saved := by
  unfold DatabaseService.saveDocumentPut at h
  split at h
  · simp at h
  · rename_i s2' respId hput
    split at h
    · rename_i saved' hget
      simp only [Except.ok.injEq, Prod.mk.injEq] at h
      obtain ⟨h1, h2⟩ := h
      exact ⟨respId, h1 ▸ hput, h1 ▸ h2 ▸ hget⟩
    · simp at h

theorem dbPut_ok_inv (s : Store) (doc : JsDoc) (s2 : Store) (k : String)
    (h : dbPut s doc = .ok (s2, k)) :
    doc._id = some k ∧
    ((∃ cur, lookupStore s k = some cur ∧ doc._rev = cur._rev ∧
        s2 = replaceEntry s k { doc with _rev := some (cur._rev.getD 0 + 1) }) ∨
      (lookupStore s k = none ∧ doc._rev = none ∧
        s2 = s ++ [(k, { doc with _rev := some 1 })])) := by
  unfold dbPut at h
  split at h
  · simp at h
  · rename_i key h_id
    split at h
    · rename_i cur hlook
      split at h
      · rename_i hrev
        simp only [Except.ok.injEq, Prod.mk.injEq] at h
        obtain ⟨h1, h2⟩ := h
        subst h2
        exact ⟨h_id, .inl ⟨cur, hlook, hrev, h1.symm⟩⟩
      · simp at h
    · rename_i hlook
      split at h
      · rename_i hrev
        simp only [Except.ok.injEq, Prod.mk.injEq] at h
        obtain ⟨h1, h2⟩ := h
        subst h2
        exact ⟨h_id, .inr ⟨hlook, hrev, h1.symm⟩⟩
      · simp at h

theorem jsTruthy_some_ne {x : String} (h : jsTruthy (some x) = true) : x ≠ "" := by
  simp only [jsTruthy, Bool.not_eq_eq_eq_not, Bool.not_true, beq_eq_false_iff_ne, ne_eq] at h
  exact h

theorem newDocId_of_truthy_id (document : JsDoc) (now : Nat) {x : String}
    (hx : document.id = some x) (htr : jsTruthy document.id = true) :
    DatabaseService.newDocId document now = x := by
  unfold DatabaseService.newDocId jsOr
  rw [hx] at htr ⊢
  simp [htr]

theorem newDocId_of_falsy_id_truthy_uid (document : JsDoc) (now : Nat)
    (hid : jsTruthy document.id = false) (huid : jsTruthy document._id = true) :
    DatabaseService.newDocId document now = ((jsOr document._id document.id).getD "") := by
  unfold DatabaseService.newDocId jsOr
  simp [hid, huid]

theorem newDocId_of_falsy (document : JsDoc) (now : Nat)
    (hid : jsTruthy document.id = false) (huid : jsTruthy document._id = false) :
    DatabaseService.newDocId document now = "doc-" ++ toString now := by
  unfold DatabaseService.newDocId jsOr
  simp [hid, huid]

theorem regularB_of_ne {o : Option String} (h : o ≠ some "settings") :
    (!(o == some "settings")) = true := by
  cases o with
  | none => rfl
  | some x =>
    simp only [Bool.not_eq_eq_eq_not, Bool.not_true, beq_eq_false_iff_ne, ne_eq,
      Option.some.injEq]
    intro hx
    exact h (by rw [hx])

theorem saveDocumentE_regularCount (s : Store) (document : JsDoc) (now : Nat)
    (s2 : Store) (saved : JsDoc)
    (hid : document.id ≠ some "settings")
    (h : DatabaseService.saveDocumentE s document now = .ok (s2, saved)) :
    regularCount s ≤ regularCount s2 := by
  unfold DatabaseService.saveDocumentE at h
  split at h
  · simp at h
  · rename_i existingDoc d0 hse
    rcases saveExisting_inv s document now existingDoc d0 hse with
      ⟨hnone, hd0, hwhy⟩ | ⟨existing, hsome, htr, hlook, hd0⟩
    · -- new-document branch
      subst hnone
      rw [Option.isNone_none, if_pos rfl] at h
      obtain ⟨k, hput, _⟩ := saveDocumentPut_ok_inv _ _ _ _ h
      obtain ⟨h_id, hcase⟩ := dbPut_ok_inv _ _ _ _ hput
      have hkeyv : k = DatabaseService.newDocId document now := by
        simp only [Option.some.injEq] at h_id
        exact h_id.symm
      rcases hcase with ⟨cur, hlookc, _, hs2⟩ | ⟨_, _, hs2⟩
      · -- the fresh id collided with an existing entry: show the new id is regular
        subst hs2
        apply regularCount_replaceEntry
        intro cur' _ _
        show (!((some (DatabaseService.newDocId document now) : Option String) ==
          some "settings")) = true
        apply regularB_of_ne
        simp only [ne_eq, Option.some.injEq]
        by_cases htr1 : jsTruthy document.id = true
        · cases hx : document.id with
          | none => rw [hx] at htr1; cases htr1
          | some x =>
            rw [newDocId_of_truthy_id document now hx htr1]
            intro hxs
            exact hid (by rw [hx, hxs])
        · rw [Bool.not_eq_true] at htr1
          by_cases htr2 : jsTruthy document._id = true
          · -- the looked-up id was absent, contradiction with the collision
            exfalso
            have hnv := newDocId_of_falsy_id_truthy_uid document now htr1 htr2
            have htrall : jsTruthy (jsOr document._id document.id) = true := by
              rw [jsOr, if_pos htr2]
              exact htr2
            rcases hwhy with hw | hw
            · rw [htrall] at hw
              cases hw
            · rw [hkeyv, hnv, hw] at hlookc
              cases hlookc
          · rw [Bool.not_eq_true] at htr2
            rw [newDocId_of_falsy document now htr1 htr2]
            exact doc_prefix_ne now
      · subst hs2
        rw [regularCount_append]
        exact Nat.le_add_right _ _
    · -- existing-document branch
      subst hsome
      rw [Option.isNone_some] at h
      rw [if_neg (by intro hc; cases hc)] at h
      obtain ⟨k, hput, _⟩ := saveDocumentPut_ok_inv _ _ _ _ h
      obtain ⟨h_id, hcase⟩ := dbPut_ok_inv _ _ _ _ hput
      have hkeyv : k = (jsOr document._id document.id).getD "" := by
        rw [hd0] at h_id
        simp only [Option.some.injEq] at h_id
        exact h_id.symm
      rcases hcase with ⟨cur, hlookc, _, hs2⟩ | ⟨hlookn, _, _⟩
      · subst hs2
        apply regularCount_replaceEntry
        intro cur' hcur' hreg'
        have hcur'ex : cur' = existing := by
          rw [hkeyv, hlook] at hcur'
          exact (Option.some.inj hcur').symm
        subst hcur'ex
        show (!(({ d0 with _rev := some (cur._rev.getD 0 + 1) } : JsDoc).id ==
          some "settings")) = true
        rw [hd0]
        show (!((document.id <|> cur'.id) == some "settings")) = true
        cases hdi : document.id with
        | none =>
          simp only [Option.none_orElse]
          exact hreg'
        | some x =>
          simp only [Option.some_orElse]
          apply regularB_of_ne
          rw [← hdi]
          exact hid
      · rw [hkeyv, hlook] at hlookn
        cases hlookn

theorem insertByUpdated_perm (d : JsDoc) (ds : List JsDoc) :
    (DocumentManager.insertByUpdated d ds).Perm (d :: ds) := by
  induction ds with
  | nil => exact List.Perm.refl _
  | cons e es ih =>
    unfold DocumentManager.insertByUpdated
    by_cases hc : e.updatedAt.getD 0 ≤ d.updatedAt.getD 0
    · rw [if_pos hc]
    · rw [if_neg hc]
      exact (List.Perm.cons e ih).trans (List.Perm.swap d e es)

theorem sortByUpdated_perm (ds : List JsDoc) :
    (DocumentManager.sortByUpdated ds).Perm ds := by
  induction ds with
  | nil => exact List.Perm.refl _
  | cons d es ih =>
    unfold DocumentManager.sortByUpdated at ih ⊢
    exact (insertByUpdated_perm d _).trans (List.Perm.cons d ih)

theorem length_filter_map_snd (s : Store) (p : JsDoc → Bool) :
    ((s.map (·.2)).filter p).length = (s.filter (fun q => p q.2)).length := by
  induction s with
  | nil => rfl
  | cons q rest ih =>
    by_cases hp : p q.2 = true <;> simp [List.filter_cons, hp, ih]

theorem getAllDocuments_nonempty (s : Store) (now : Nat) (hs : s ≠ []) :
    DocumentManager.getAllDocuments s now =
      (s, settingsDoc :: DocumentManager.sortByUpdated (s.map (·.2))) := by
  unfold DocumentManager.getAllDocuments
  rw [if_neg]
  simp only [List.length_map, List.length_eq_zero]
  exact hs

theorem regularDocs_length (s : Store) (now : Nat) (hs : s ≠ []) :
    ((DocumentManager.getAllDocuments s now).2.filter
      (fun d => !(d.id == some "settings"))).length = regularCount s := by
  rw [getAllDocuments_nonempty s now hs]
  show ((settingsDoc :: DocumentManager.sortByUpdated (s.map (·.2))).filter
    (fun d => !(d.id == some "settings"))).length = regularCount s
  rw [List.filter_cons]
  have hset : (!(settingsDoc.id == some "settings")) = false := rfl
  rw [hset]
  simp only [Bool.false_eq_true, if_false]
  rw [((sortByUpdated_perm (s.map (·.2))).filter _).length_eq]
  exact length_filter_map_snd s _

theorem dbRemove_ok_inv (s : Store) (doc : JsDoc) (s3 : Store)
    (h : dbRemove s doc = .ok s3) :
    ∃ key, doc._id = some key ∧ s3 = removeEntry s key := by
  unfold dbRemove at h
  split at h
  · simp at h
  · rename_i key h_id
    split at h
    · rename_i cur hlook
      split at h
      · simp only [Except.ok.injEq] at h
        exact ⟨key, h_id, h.symm⟩
      · simp at h
    · simp at h

theorem dbDelete_regularCount (s : Store) (id : String) :
    regularCount s ≤ regularCount (DatabaseService.deleteDocument s id).1 + 1 := by
  unfold DatabaseService.deleteDocument
  split
  · rename_i doc hget
    split
    · rename_i s3 hrem
      obtain ⟨key, _, hs3⟩ := dbRemove_ok_inv s doc s3 hrem
      subst hs3
      exact regularCount_removeEntry s key
    · exact Nat.le_succ_of_le (Nat.le_refl _)
  · exact Nat.le_succ_of_le (Nat.le_refl _)

theorem regularCount_pos_ne_nil {s : Store} (h : 1 ≤ regularCount s) : s ≠ [] := by
  intro hs
  rw [hs] at h
  cases h

theorem deleteDocument_regularCount (s : Store) (id : String) (now : Nat)
    (h1 : 1 ≤ regularCount s) :
    1 ≤ regularCount (DocumentManager.deleteDocument s id now).1 := by
  have hs := regularCount_pos_ne_nil h1
  unfold DocumentManager.deleteDocument
  by_cases hid : id = "settings"
  · rw [if_pos hid]
    exact h1
  · rw [if_neg hid]
    rw [getAllDocuments_nonempty s now hs]
    by_cases hlen : ((settingsDoc :: DocumentManager.sortByUpdated (s.map (·.2))).filter
        (fun d => !(d.id == some "settings"))).length ≤ 1
    · simp only [hlen, if_pos]
      exact h1
    · rw [if_neg hlen]
      have hcount : regularCount s =
          ((settingsDoc :: DocumentManager.sortByUpdated (s.map (·.2))).filter
            (fun d => !(d.id == some "settings"))).length := by
        have := regularDocs_length s now hs
        rw [getAllDocuments_nonempty s now hs] at this
        exact this.symm
      have h2 : 2 ≤ regularCount s := by omega
      have h3 := dbDelete_regularCount s id
      show 1 ≤ regularCount (DatabaseService.deleteDocument s id).1
      omega

theorem saveDocument_regularCount (s : Store) (document : JsDoc) (now : Nat)
    (hid : document.id ≠ some "settings") :
    regularCount s ≤ regularCount (DatabaseService.saveDocument s document now).1 := by
  unfold DatabaseService.saveDocument
  split
  · rename_i r h
    obtain ⟨s2, saved⟩ := r
    exact saveDocumentE_regularCount s document now s2 saved hid h
  · exact Nat.le_refl _

theorem dmSaveDocument_regularCount (s : Store) (document : JsDoc) (now : Nat) :
    regularCount s ≤ regularCount (DocumentManager.saveDocument s document now).1 := by
  unfold DocumentManager.saveDocument
  by_cases hid : document.id = some "settings"
  · rw [if_pos hid]
  · rw [if_neg hid]
    exact saveDocument_regularCount s document now hid

theorem dmStep_regularCount (s : Store) (op : DmOp) (now : Nat)
    (h : 1 ≤ regularCount s) : 1 ≤ regularCount (dmStep s op now) := by
  cases op with
  | getAll =>
    show 1 ≤ regularCount (DocumentManager.getAllDocuments s now).1
    rw [getAllDocuments_nonempty s now (regularCount_pos_ne_nil h)]
    exact h
  | getDoc id => exact h
  | save d => exact h.trans (dmSaveDocument_regularCount s d now)
  | del id => exact deleteDocument_regularCount s id now h
  | create t =>
    show 1 ≤ regularCount (DocumentManager.createDocument s t now).1
    unfold DocumentManager.createDocument
    exact h.trans (dmSaveDocument_regularCount s _ now)

theorem dmRun_regularCount (s : Store) (ops : List (DmOp × Nat))
    (h : 1 ≤ regularCount s) : 1 ≤ regularCount (dmRun s ops) := by
  induction ops generalizing s with
  | nil => exact h
  | cons p rest ih =>
    obtain ⟨op, now⟩ := p
    exact ih _ (dmStep_regularCount s op now h)

theorem dbPut_at_existing (s : Store) (doc cur : JsDoc) (key : String)
    (h_id : doc._id = some key) (hlook : lookupStore s key = some cur)
    (hrev : doc._rev = cur._rev) :
    dbPut s doc =
      .ok (replaceEntry s key { doc with _rev := some (cur._rev.getD 0 + 1) }, key) := by
  unfold dbPut
  split
  · rename_i h0
    rw [h0] at h_id
    cases h_id
  · rename_i key' h0
    rw [h0] at h_id
    have hk : key' = key := Option.some.inj h_id
    subst hk
    split
    · rename_i cur' hlook'
      rw [hlook] at hlook'
      have hc : cur' = cur := Option.some.inj hlook'.symm
      subst hc
      rw [if_pos hrev]
    · rename_i hlook'
      rw [hlook] at hlook'
      cases hlook'

theorem saveExisting_found (s : Store) (document existing : JsDoc) (now : Nat)
    (htr : jsTruthy (jsOr document._id document.id) = true)
    (hlook : lookupStore s ((jsOr document._id document.id).getD "") = some existing) :
    DatabaseService.saveExisting s document now =
      .ok (some existing,
        { spreadDoc existing document with
            _id := some ((jsOr document._id document.id).getD "")
            _rev := existing._rev
            updatedAt := some now }) := by
  unfold DatabaseService.saveExisting
  rw [if_pos htr, (dbGet_ok_iff _ _ _).mpr hlook]

theorem saveDocumentPut_eq (s : Store) (d : JsDoc) (s2 : Store) (k : String) (saved : JsDoc)
    (hput : dbPut s d = .ok (s2, k)) (hget : dbGet s2 k = .ok saved) :
    DatabaseService.saveDocumentPut s d = .ok (s2, saved) := by
  unfold DatabaseService.saveDocumentPut
  rw [hput]
  show (match dbGet s2 k with
    | .ok saved => (.ok (s2, saved) : Except DbErr (Store × JsDoc))
    | .error e => .error e) = .ok (s2, saved)
  rw [hget]

theorem saveDocumentE_found (s : Store) (document existing : JsDoc) (now : Nat)
    (htr : jsTruthy (jsOr document._id document.id) = true)
    (hlook : lookupStore s ((jsOr document._id document.id).getD "") = some existing) :
    DatabaseService.saveDocumentE s document now =
      .ok (replaceEntry s ((jsOr document._id document.id).getD "")
            { spreadDoc existing document with
                _id := some ((jsOr document._id document.id).getD "")
                _rev := some (existing._rev.getD 0 + 1)
                updatedAt := some now },
          { spreadDoc existing document with
              _id := some ((jsOr document._id document.id).getD "")
              _rev := some (existing._rev.getD 0 + 1)
              updatedAt := some now }) := by
  unfold DatabaseService.saveDocumentE
  rw [saveExisting_found s document existing now htr hlook]
  exact saveDocumentPut_eq s _ _ _ _
    (dbPut_at_existing s _ existing _ rfl hlook rfl)
    ((dbGet_ok_iff _ _ _).mpr (lookupStore_replaceEntry_self s _ _ existing hlook))

/-- C1 counterexample: the stored document has revision 2; `saveDocument` is
given a stale expected revision 1, yet the write succeeds and the stored
content is overwritten (generation bumped to 3), because `saveDocument`
replaces the supplied revision by the current one. -/
theorem saveDocument_stale_rev_overwrites_cex :
    (some 1 : Option Nat) ≠ some 2 ∧
    DatabaseService.saveDocumentE
      [("x", { _id := some "x", id := some "x", _rev := some 2, title := none,
               content := some "current", createdAt := some 1, updatedAt := some 1 })]
      { _id := some "x", id := none, _rev := some 1, title := none,
        content := some "new", createdAt := none, updatedAt := none } 7
    = .ok ([("x", { _id := some "x", id := some "x", _rev := some 3, title := none,
                    content := some "new", createdAt := some 1, updatedAt := some 7 })],
           { _id := some "x", id := some "x", _rev := some 3, title := none,
             content := some "new", createdAt := some 1, updatedAt := some 7 }) :=
  ⟨by decide, rfl⟩

/-- C1 amended: the underlying store put does fail with `RevisionConflict`
on a mismatched revision, but `saveDocument` bypasses the check by
substituting the current stored revision, so a save on an existing id always
succeeds and overwrites the current revision, whatever revision the caller
supplied. -/
theorem saveDocument_revision_handling :
    (∀ (s : Store) (doc cur : JsDoc) (key : String),
      doc._id = some key → lookupStore s key = some cur → doc._rev ≠ cur._rev →
      dbPut s doc = .error .conflict) ∧
    (∀ (s : Store) (document existing : JsDoc) (now : Nat),
      jsTruthy (jsOr document._id document.id) = true →
      lookupStore s ((jsOr document._id document.id).getD "") = some existing →
      ∃ s2 saved, DatabaseService.saveDocumentE s document now = .ok (s2, saved) ∧
        saved._rev = some (existing._rev.getD 0 + 1) ∧
        saved.content = (document.content <|> existing.content) ∧
        lookupStore s2 ((jsOr document._id document.id).getD "") = some saved) := by
  constructor
  · intro s doc cur key h_id hlook hrev
    unfold dbPut
    split
    · rename_i h0
      rw [h0] at h_id
      cases h_id
    · rename_i key' h0
      rw [h0] at h_id
      have hk : key' = key := Option.some.inj h_id
      subst hk
      split
      · rename_i cur' hlook'
        rw [hlook] at hlook'
        have hc : cur' = cur := Option.some.inj hlook'.symm
        subst hc
        rw [if_neg hrev]
      · rename_i hlook'
        rw [hlook] at hlook'
        cases hlook'
  · intro s document existing now htr hlook
    exact ⟨_, _, saveDocumentE_found s document existing now htr hlook, rfl, rfl,
      lookupStore_replaceEntry_self s _ _ existing hlook⟩

theorem saveDocument_revision_handling_witness :
    dbPut [("x", { _id := some "x", id := some "x", _rev := some 2, title := none,
                   content := some "current", createdAt := some 1, updatedAt := some 1 })]
      { _id := some "x", id := none, _rev := some 1, title := none,
        content := some "new", createdAt := none, updatedAt := none }
      = .error .conflict ∧
    ∃ s2 saved,
      DatabaseService.saveDocumentE
        [("x", { _id := some "x", id := some "x", _rev := some 2, title := none,
                 content := some "current", createdAt := some 1, updatedAt := some 1 })]
        { _id := some "x", id := none, _rev := some 1, title := none,
          content := some "new", createdAt := none, updatedAt := none } 7
        = .ok (s2, saved) ∧
      saved._rev = some 3 ∧
      saved.content = some "new" ∧
      lookupStore s2 "x" = some saved :=
  ⟨saveDocument_revision_handling.1 _ _ _ "x" rfl rfl (by decide),
   saveDocument_revision_handling.2
     [("x", { _id := some "x", id := some "x", _rev := some 2, title := none,
              content := some "current", createdAt := some 1, updatedAt := some 1 })]
     { _id := some "x", id := none, _rev := some 1, title := none,
       content := some "new", createdAt := none, updatedAt := none }
     { _id := some "x", id := some "x", _rev := some 2, title := none,
       content := some "current", createdAt := some 1, updatedAt := some 1 }
     7 (by decide) rfl⟩

/-- C10: `saveDocument` never lets an error escape — when the uncaught body
fails the outer catch returns the store unchanged together with the original
input document, and when it succeeds the result is passed through. -/
theorem saveDocument_never_raises :
    ∀ (s : Store) (document : JsDoc) (now : Nat),
      (∀ e, DatabaseService.saveDocumentE s document now = .error e →
        DatabaseService.saveDocument s document now = (s, document)) ∧
      (∀ r, DatabaseService.saveDocumentE s document now = .ok r →
        DatabaseService.saveDocument s document now = r) := by
  intro s document now
  constructor
  · intro e he
    unfold DatabaseService.saveDocument
    rw [he]
  · intro r hr
    unfold DatabaseService.saveDocument
    rw [hr]

theorem saveDocument_never_raises_witness :
    DatabaseService.saveDocument []
      { _id := some "x", id := none, _rev := some 1, title := none,
        content := some "new", createdAt := none, updatedAt := none } 7
    = ([], { _id := some "x", id := none, _rev := some 1, title := none,
             content := some "new", createdAt := none, updatedAt := none }) :=
  (saveDocument_never_raises [] _ 7).1 .conflict rfl

/-- C9 counterexample: on an empty store, `deleteDocument` returns `false`
but does not leave the store unchanged — the default welcome document is
created as a side effect of the `getAllDocuments` call. -/
theorem deleteDocument_empty_store_cex :
    (DocumentManager.deleteDocument [] "x" 5).2 = false ∧
    (DocumentManager.deleteDocument [] "x" 5).1 ≠ [] := by
  decide

/-- C9 amended: `deleteDocument` returns `false` for the settings id and
whenever at most one regular document is listed; a non-empty store is left
unchanged in those cases, while on an empty store the default welcome
document is created as a side effect; and every sequence of public
`DocumentManager` operations preserves the presence of at least one regular
document. -/
theorem deleteDocument_guards :
    (∀ (s : Store) (now : Nat), DocumentManager.deleteDocument s "settings" now = (s, false)) ∧
    (∀ (s : Store) (id : String) (now : Nat), s ≠ [] → regularCount s ≤ 1 →
      DocumentManager.deleteDocument s id now = (s, false)) ∧
    (∀ (id : String) (now : Nat), id ≠ "settings" →
      DocumentManager.deleteDocument [] id now =
        ((DocumentManager.saveDocument [] DocumentManager.DEFAULT_DOCUMENT now).1, false)) ∧
    (∀ (s : Store) (ops : List (DmOp × Nat)), 1 ≤ regularCount s →
      1 ≤ regularCount (dmRun s ops)) := by
  refine ⟨?_, ?_, ?_, ?_⟩
  · intro s now
    unfold DocumentManager.deleteDocument
    rw [if_pos rfl]
  · intro s id now hs hle
    unfold DocumentManager.deleteDocument
    by_cases hid : id = "settings"
    · rw [if_pos hid]
    · rw [if_neg hid]
      rw [getAllDocuments_nonempty s now hs]
      have hcount := regularDocs_length s now hs
      rw [getAllDocuments_nonempty s now hs] at hcount
      rw [if_pos (by rw [hcount]; exact hle)]
  · intro id now hid
    unfold DocumentManager.deleteDocument
    rw [if_neg hid]
    rfl
  · exact fun s ops h => dmRun_regularCount s ops h

theorem deleteDocument_guards_witness :
    DocumentManager.deleteDocument
      [("a", { _id := some "a", id := some "a", _rev := some 1, title := none,
               content := some "hi", createdAt := some 1, updatedAt := some 1 })]
      "settings" 3
      = ([("a", { _id := some "a", id := some "a", _rev := some 1, title := none,
                  content := some "hi", createdAt := some 1, updatedAt := some 1 })], false) ∧
    DocumentManager.deleteDocument
      [("a", { _id := some "a", id := some "a", _rev := some 1, title := none,
               content := some "hi", createdAt := some 1, updatedAt := some 1 })]
      "a" 3
      = ([("a", { _id := some "a", id := some "a", _rev := some 1, title := none,
                  content := some "hi", createdAt := some 1, updatedAt := some 1 })], false) ∧
    DocumentManager.deleteDocument [] "x" 9 =
      ((DocumentManager.saveDocument [] DocumentManager.DEFAULT_DOCUMENT 9).1, false) ∧
    1 ≤ regularCount (dmRun
      [("a", { _id := some "a", id := some "a", _rev := some 1, title := none,
               content := some "hi", createdAt := some 1, updatedAt := some 1 })]
      [(DmOp.del "a", 4), (DmOp.create "t", 5)]) :=
  ⟨deleteDocument_guards.1 _ 3,
   deleteDocument_guards.2.1 _ "a" 3 (by decide) (by decide),
   deleteDocument_guards.2.2.1 "x" 9 (by decide),
   deleteDocument_guards.2.2.2 _ _ (by decide)⟩

/-! Model of the `SyncService` connection state, its one-shot replication
operations and the listener notification. -/

/-- The `SyncService` fields touched by the one-shot operations; `docs` is
the local document database, mutated only by actual replication. -/
structure SyncState where
  remoteDB : Option String
  isOnline : Bool
  syncStatus : String
  lastSyncTime : Option Nat
  syncError : Option String
  docs : Store
deriving DecidableEq, Repr

/-- Outcome of the underlying replication call (`localDB.sync`,
`localDB.replicate.to`, `localDB.replicate.from`), supplied as an oracle:
the replicated document store, or a thrown transport error. -/
inductive ReplOutcome where
  | success (docs : Store)
  | failure (msg : String)
deriving DecidableEq, Repr

/-- `SyncService.getStatus()`. -/
structure SyncStatusR where
  status : String
  isOnline : Bool
  lastSyncTime : Option Nat
  error : Option String
  isConnected : Bool
  couchdbUrl : Option String
deriving DecidableEq, Repr

def getStatus (st : SyncState) : SyncStatusR :=
  { status := st.syncStatus
    isOnline := st.isOnline
    lastSyncTime := st.lastSyncTime
    error := st.syncError
    isConnected := st.remoteDB.isSome
    couchdbUrl := st.remoteDB }

/-- `SyncService.forceSync()`: the guard
`if (!this.remoteDB || !this.isOnline) throw` and, past it, the one-shot
sync; the transient `syncing` status is overwritten by the final status of
the same call, so the model records the final state. -/
def forceSync (st : SyncState) (out : ReplOutcome) (now : Nat) :
    SyncState × Except String Unit :=
  if st.remoteDB.isNone || !st.isOnline then
    (st, .error "Not connected to remote database")
  else
    match out with
    | .success docs =>
      ({ st with docs := docs, lastSyncTime := some now,
                 syncStatus := "up-to-date", syncError := none }, .ok ())
    | .failure msg =>
      ({ st with syncStatus := "error", syncError := some msg }, .error msg)

/-- `SyncService.pushToRemote()`: unlike `forceSync`, the success path does
not clear `syncError`. -/
def pushToRemote (st : SyncState) (out : ReplOutcome) (now : Nat) :
    SyncState × Except String Unit :=
  if st.remoteDB.isNone || !st.isOnline then
    (st, .error "Not connected to remote database")
  else
    match out with
    | .success docs =>
      ({ st with docs := docs, lastSyncTime := some now,
                 syncStatus := "up-to-date" }, .ok ())
    | .failure msg =>
      ({ st with syncStatus := "error", syncError := some msg }, .error msg)

/-- `SyncService.pullFromRemote()`. -/
def pullFromRemote (st : SyncState) (out : ReplOutcome) (now : Nat) :
    SyncState × Except String Unit :=
  if st.remoteDB.isNone || !st.isOnline then
    (st, .error "Not connected to remote database")
  else
    match out with
    | .success docs =>
      ({ st with docs := docs, lastSyncTime := some now,
                 syncStatus := "up-to-date" }, .ok ())
    | .failure msg =>
      ({ st with syncStatus := "error", syncError := some msg }, .error msg)

/-- The `forEach` of `SyncService.notifyListeners()`: each callback is
invoked in order with the given status; a thrown error is caught and logged
(`console.error`), surfaced here as that listener's `some`-entry in the
returned log. -/
def runListeners : List (SyncStatusR → Except String Unit) → SyncStatusR → List (Option String)
  | [], _ => []
  | cb :: rest, status =>
    (match cb status with
     | .ok _ => none
     | .error e => some e) :: runListeners rest status

/-- `SyncService.notifyListeners()`: every listener receives the current
status. -/
def notifyListeners (listeners : List (SyncStatusR → Except String Unit))
    (st : SyncState) : List (Option String) :=
  runListeners listeners (getStatus st)

theorem runListeners_append (ls1 ls2 : List (SyncStatusR → Except String Unit))
    (status : SyncStatusR) :
    runListeners (ls1 ++ ls2) status =
      runListeners ls1 status ++ runListeners ls2 status := by
  induction ls1 with
  | nil => rfl
  | cons cb rest ih =>
    simp only [List.cons_append, runListeners, List.append_eq, ih]

theorem runListeners_length (ls : List (SyncStatusR → Except String Unit))
    (status : SyncStatusR) : (runListeners ls status).length = ls.length := by
  induction ls with
  | nil => rfl
  | cons cb rest ih => simp only [runListeners, List.length_cons, ih]

/-- C7: each one-shot replication operation fails with the `Not connected`
error whenever no remote database is configured or the engine is offline,
returning the state — documents included — unchanged. -/
theorem oneshot_not_connected :
    ∀ (st : SyncState) (out : ReplOutcome) (now : Nat),
      (st.remoteDB = none ∨ st.isOnline = false) →
      forceSync st out now = (st, .error "Not connected to remote database") ∧
      pushToRemote st out now = (st, .error "Not connected to remote database") ∧
      pullFromRemote st out now = (st, .error "Not connected to remote database") := by
  intro st out now h
  have hg : (st.remoteDB.isNone || !st.isOnline) = true := by
    rcases h with h | h
    · rw [h]
      rfl
    · rw [h]
      simp
  refine ⟨?_, ?_, ?_⟩
  · unfold forceSync
    rw [if_pos hg]
  · unfold pushToRemote
    rw [if_pos hg]
  · unfold pullFromRemote
    rw [if_pos hg]

theorem oneshot_not_connected_witness :
    forceSync ⟨none, true, "disconnected", none, none, []⟩ (.success []) 3
      = (⟨none, true, "disconnected", none, none, []⟩,
         .error "Not connected to remote database") ∧
    pushToRemote ⟨some "http://db", false, "offline", none, none, []⟩ (.success []) 3
      = (⟨some "http://db", false, "offline", none, none, []⟩,
         .error "Not connected to remote database") ∧
    pullFromRemote ⟨none, false, "offline", none, none, []⟩ (.failure "boom") 3
      = (⟨none, false, "offline", none, none, []⟩,
         .error "Not connected to remote database") :=
  ⟨(oneshot_not_connected _ _ 3 (.inl rfl)).1,
   (oneshot_not_connected _ _ 3 (.inr rfl)).2.1,
   (oneshot_not_connected _ _ 3 (.inl rfl)).2.2⟩

/-- C8: a status notification reaches every listener with the current
status; a listener that throws has its failure caught and logged without
preventing the remaining listeners from running, and nothing propagates out
of `notifyListeners` (it is a total function into the log). -/
theorem notifyListeners_isolates_failures :
    ∀ (pre post : List (SyncStatusR → Except String Unit))
      (f : SyncStatusR → Except String Unit) (st : SyncState) (e : String),
      f (getStatus st) = .error e →
      notifyListeners (pre ++ f :: post) st =
        notifyListeners pre st ++ some e :: notifyListeners post st ∧
      (notifyListeners (pre ++ f :: post) st).length = pre.length + 1 + post.length := by
  intro pre post f st e hf
  constructor
  · unfold notifyListeners
    rw [runListeners_append]
    show _ ++ ((match f (getStatus st) with
      | .ok _ => none
      | .error e => some e) :: runListeners post (getStatus st)) = _
    rw [hf]
  · unfold notifyListeners
    rw [runListeners_length]
    simp only [List.length_append, List.length_cons]
    omega

theorem notifyListeners_isolates_failures_witness :
    notifyListeners [fun _ => .ok (), fun _ => .error "boom", fun _ => .ok ()]
        ⟨none, true, "disconnected", none, none, []⟩ =
      notifyListeners [fun _ => .ok ()] ⟨none, true, "disconnected", none, none, []⟩ ++
        some "boom" ::
          notifyListeners [fun _ => .ok ()] ⟨none, true, "disconnected", none, none, []⟩ ∧
    (notifyListeners [fun _ => .ok (), fun _ => .error "boom", fun _ => .ok ()]
        ⟨none, true, "disconnected", none, none, []⟩).length = 1 + 1 + 1 :=
  notifyListeners_isolates_failures [fun _ => .ok ()] [fun _ => .ok ()]
    (fun _ => .error "boom") ⟨none, true, "disconnected", none, none, []⟩ "boom" rfl

end Commad
